import Mathlib

/-!
Verification of the Text2SQL repository against its specification.

The repository ships a React frontend (`SchemaUpload`, `QueryInput`,
`OutputDisplay`, `services/api.js`) and documentation of a Python backend
(`validation_gauntlet.py`, `trc_handler.py`, …) that is described in the
READMEs and the specification but whose code is not present in the source
tree.  The frontend components are embedded here directly from their JSX/JS
sources; the backend Gauntlet core (parser, semantic validator, TRC
translator, safety checker, orchestrator) is modelled from the
specification, as noted on each such definition.
-/

namespace Text2SQL

/-! ## String utilities (structural char-list implementations) -/

/-- Uppercase an ASCII letter. -/
def upChar (c : Char) : Char :=
  if 'a' ≤ c ∧ c ≤ 'z' then Char.ofNat (c.toNat - 32) else c

/-- Lowercase an ASCII letter. -/
def lowChar (c : Char) : Char :=
  if 'A' ≤ c ∧ c ≤ 'Z' then Char.ofNat (c.toNat + 32) else c

/-- ASCII-uppercase a string. -/
def upStr (s : String) : String := (s.toList.map upChar).asString

/-- ASCII-lowercase a string. -/
def lowStr (s : String) : String := (s.toList.map lowChar).asString

/-- Strip leading and trailing whitespace (the JS `String.prototype.trim`
semantics over ASCII whitespace). -/
def trimStr (s : String) : String :=
  ((s.toList.dropWhile Char.isWhitespace).reverse.dropWhile
    Char.isWhitespace).reverse.asString

/-- Parse a nonempty all-digit character list as a natural number. -/
def natOfDigits (ds : List Char) : Option Nat :=
  if ds.isEmpty then none
  else if ds.all Char.isDigit then
    some (ds.foldl (fun acc c => acc * 10 + (c.toNat - 48)) 0)
  else none

/-- Parse a decimal integer lexeme (with optional leading minus). -/
def toIntLex (s : String) : Option Int :=
  match s.toList with
  | '-' :: ds => (natOfDigits ds).map fun n => -(n : Int)
  | ds => (natOfDigits ds).map fun n => (n : Int)

/-- Split a character list on a separator character. -/
def splitOnChar (sep : Char) : List Char → List (List Char)
  | [] => [[]]
  | c :: rest =>
      match splitOnChar sep rest with
      | [] => [[c]]
      | g :: gs => if c = sep then [] :: g :: gs else (c :: g) :: gs

/-- Split a string on `.` into its dot-separated parts. -/
def splitDot (s : String) : List String :=
  (splitOnChar '.' s.toList).map List.asString

/-- Does the string start with a quote character (`"` or the single
quote)? -/
def startsWithQuote (s : String) : Bool :=
  match s.toList with
  | c :: _ => c = '"' ∨ c.toNat = 39
  | [] => false

/-! ## Frontend service layer: `frontend/src/services/api.js` -/

/-- A JavaScript `Error` value as observed by the `catch` blocks of
`api.js`: only its `message` field is consulted. -/
structure JsError where
  message : String
deriving Repr, DecidableEq

/-- An axios response object; `api.js` only ever reads `response.data`. -/
structure AxiosResponse (α : Type) where
  data : α
deriving Repr, DecidableEq

/-- Outcome of `api.post(...)` as awaited inside `apiService`: either a
resolved response or a rejection carrying a `JsError`. -/
inductive PostOutcome (α : Type) where
  | success (r : AxiosResponse α)
  | failure (e : JsError)
deriving Repr, DecidableEq

/-- `apiService.submitSchema` (api.js lines 16–25): `try`-awaits the POST to
`/submit-schema`; on success returns `response.data`, on any failure throws
`new Error("Failed to submit schema: " + error.message)`. -/
def submitSchema {α : Type} (o : PostOutcome α) : Except JsError α :=
  match o with
  | .success r => .ok r.data
  | .failure e => .error ⟨"Failed to submit schema: " ++ e.message⟩

/-- `apiService.generateSQL` (api.js lines 26–34): same shape over
`/generate-sql`, with error prefix `"Failed to generate SQL: "`. -/
def generateSQL {α : Type} (o : PostOutcome α) : Except JsError α :=
  match o with
  | .success r => .ok r.data
  | .failure e => .error ⟨"Failed to generate SQL: " ++ e.message⟩

/-! ## Frontend result consumer: `OutputDisplay` (current revision)

The current `OutputDisplay` component (the revision reading the navigation
state) pulls `location.state?.response` and `location.state?.database_id`,
returns a "No Query Results Found" view when the response is absent, and
otherwise renders `original_query`, the formatted `sql_query`, the
`trc_explanation.{trc, description, query, sql}` cards and the
`validation_status.{syntactic, semantic, logical, overall_valid}` panels. -/

/-- The nested `trc_explanation` object read by `OutputDisplay`. -/
structure TrcExplanation where
  trc : String
  description : String
  query : String
  sql : String
deriving Repr, DecidableEq

/-- One stage entry of `validation_status` as read by `OutputDisplay`
(fields `valid` and `errors`, both accessed with optional chaining). -/
structure StageStatus where
  valid : Bool
  errors : List String
deriving Repr, DecidableEq

/-- The `validation_status` object read by `OutputDisplay`. -/
structure ValidationStatus where
  syntactic : StageStatus
  semantic : StageStatus
  logical : StageStatus
  overall_valid : Bool
deriving Repr, DecidableEq

/-- The API response object whose fields `OutputDisplay` dereferences. -/
structure ResponseData where
  original_query : String
  sql_query : String
  trc_explanation : TrcExplanation
  validation_status : ValidationStatus
deriving Repr, DecidableEq

/-- The navigation state `OutputDisplay` receives from `location.state`. -/
structure NavState where
  response : Option ResponseData
  database_id : Option String
deriving Repr, DecidableEq

/-- The view tree `OutputDisplay` can return: either the fallback
"No Query Results Found" screen (whose only data dependency is the
`database_id` threaded into its button) or the results screen populated
from the response fields. -/
inductive DisplayView where
  | noResults (databaseId : Option String)
  | results (originalQuery : String) (formattedSql : String)
      (explanation : TrcExplanation) (validation : ValidationStatus)
deriving Repr, DecidableEq

/-- `OutputDisplay` render function, embedded from the component body:
`responseData = location.state?.response`; if absent, return the fallback
view; otherwise compute `formattedSql` (via the external `sql-formatter`,
passed here as `fmt`; the empty string when `sql_query` is falsy) and
render the results view from the response's fields. -/
def outputDisplay (fmt : String → String) (state : Option NavState) :
    DisplayView :=
  let responseData := state.bind (·.response)
  let databaseId := state.bind (·.database_id)
  match responseData with
  | none => .noResults databaseId
  | some r =>
      let formattedSql := if r.sql_query ≠ "" then fmt r.sql_query else ""
      .results r.original_query formattedSql r.trc_explanation
        r.validation_status

/-! ## Frontend `QueryInput.handleGenerateSQL` -/

/-- Body sent by the `fetch` POST in `handleGenerateSQL`. -/
structure GenerateRequest where
  database_id : String
  user_query : String
deriving Repr, DecidableEq

/-- Outcome of the `fetch('http://localhost:8000/api/generate-sql', …)`
call: resolved with `response.ok` true (and a JSON body), resolved with
`response.ok` false, or rejected (network error). -/
inductive FetchOutcome where
  | okJson (data : ResponseData)
  | notOk
  | threw (e : JsError)
deriving Repr, DecidableEq

/-- Observable effects of one `handleGenerateSQL` invocation: requests
issued, navigations performed, alerts raised, and the final value of the
`isGenerating` state flag. -/
structure HandlerEffects where
  requests : List GenerateRequest
  navigations : List (ResponseData × Option String)
  alerts : List String
  isGenerating : Bool
deriving Repr, DecidableEq

/-- `handleGenerateSQL` (QueryInput, current revision): returns at once when
`query.trim()` is falsy; otherwise sets `isGenerating` to `true`, and inside
`try`: alerts and returns when `databaseId` is unset, else issues the POST
and navigates to `/results` only when the response is ok; the `finally`
block resets `isGenerating` to `false` on every path that entered the
`try`. -/
def handleGenerateSQL (query : String) (databaseId : Option String)
    (fetchOutcome : FetchOutcome) (isGenerating0 : Bool) : HandlerEffects :=
  if trimStr query = "" then
    { requests := [], navigations := [], alerts := [],
      isGenerating := isGenerating0 }
  else
    match databaseId with
    | none =>
        { requests := [], navigations := [],
          alerts := ["No Database ID found. Please upload a schema first."],
          isGenerating := false }
    | some dbId =>
        match fetchOutcome with
        | .okJson data =>
            { requests := [⟨dbId, query⟩],
              navigations := [(data, some dbId)], alerts := [],
              isGenerating := false }
        | .notOk =>
            { requests := [⟨dbId, query⟩], navigations := [], alerts := [],
              isGenerating := false }
        | .threw _ =>
            { requests := [⟨dbId, query⟩], navigations := [], alerts := [],
              isGenerating := false }

/-! ## Field paths: specified Gauntlet result shape vs. frontend reads -/

/-- Modelled from the spec: the language-agnostic Gauntlet result shape
`\x7b overall_valid, syntactic: \x7bvalid, errors[]\x7d, semantic:
\x7bvalid, errors[]\x7d, logical: \x7bvalid, errors[]\x7d, trc:
\x7bformula_text, natural_language\x7d|null \x7d`, given as the list of
leaf field paths it provides. -/
def specResultPaths : List (List String) :=
  [["overall_valid"],
   ["syntactic", "valid"], ["syntactic", "errors"],
   ["semantic", "valid"], ["semantic", "errors"],
   ["logical", "valid"], ["logical", "errors"],
   ["trc", "formula_text"], ["trc", "natural_language"]]

/-- The validation-stage subset of `specResultPaths` (everything except the
`trc` object). -/
def specValidationPaths : List (List String) :=
  [["overall_valid"],
   ["syntactic", "valid"], ["syntactic", "errors"],
   ["semantic", "valid"], ["semantic", "errors"],
   ["logical", "valid"], ["logical", "errors"]]

/-- The leaf field paths `OutputDisplay` dereferences on the response
object, read off its JSX: `original_query`, `sql_query`,
`trc_explanation.trc/description/query/sql`, and
`validation_status.syntactic/semantic/logical.valid/errors` plus
`validation_status.overall_valid`. -/
def outputDisplayReadPaths : List (List String) :=
  [["original_query"], ["sql_query"],
   ["trc_explanation", "trc"], ["trc_explanation", "description"],
   ["trc_explanation", "query"], ["trc_explanation", "sql"],
   ["validation_status", "syntactic", "valid"],
   ["validation_status", "syntactic", "errors"],
   ["validation_status", "semantic", "valid"],
   ["validation_status", "semantic", "errors"],
   ["validation_status", "logical", "valid"],
   ["validation_status", "logical", "errors"],
   ["validation_status", "overall_valid"]]

/-- The subset of `outputDisplayReadPaths` under `validation_status`. -/
def outputDisplayValidationPaths : List (List String) :=
  outputDisplayReadPaths.filter
    (fun p => p.head? = some "validation_status")

/-! ## Gauntlet core — Schema Graph and SQL AST

Modelled from the spec: the backend core (`validation_gauntlet.py`,
`trc_handler.py` and friends) is described by the READMEs and §2–§4 of the
specification but its code is not in the source tree; the data model below
follows §3 verbatim. -/

/-- Modelled from the spec (§3): column types of the Schema Graph. -/
inductive ColType where
  | INTEGER | DECIMAL | VARCHAR | DATE | BOOLEAN
deriving Repr, DecidableEq

/-- Modelled from the spec (§3): `Column {name, type, nullable}`. -/
structure Column where
  name : String
  type : ColType
  nullable : Bool
deriving Repr, DecidableEq

/-- Modelled from the spec (§3): `ForeignKey {column, referencedTable,
referencedColumn}`. -/
structure ForeignKey where
  column : String
  referencedTable : String
  referencedColumn : String
deriving Repr, DecidableEq

/-- Modelled from the spec (§3): `Table {name, columns, primaryKey,
foreignKeys}`. -/
structure Table where
  name : String
  columns : List Column
  primaryKey : List String
  foreignKeys : List ForeignKey
deriving Repr, DecidableEq

/-- Modelled from the spec (§3): the Schema Graph, read-only to the core. -/
structure SchemaGraph where
  tables : List Table
deriving Repr, DecidableEq

/-- Comparison operators of the supported grammar:
`op ∈ \x7b=, <, >, <=, >=, <>\x7d`. -/
inductive CmpOp where
  | eq | lt | gt | le | ge | ne
deriving Repr, DecidableEq

/-- Symbolic rendering of a comparison operator. -/
def CmpOp.render : CmpOp → String
  | .eq => "=" | .lt => "<" | .gt => ">"
  | .le => "<=" | .ge => ">=" | .ne => "<>"

/-- SQL literal values as carried by `Expr = … | Literal\x7bvalue\x7d`. -/
inductive LitValue where
  | intLit (n : Int)
  | strLit (s : String)
deriving Repr, DecidableEq

/-- Modelled from the spec (§3): `Expr = ColumnRef\x7btable?, column\x7d |
Literal\x7bvalue\x7d | Aggregate\x7bfn, arg\x7d` (aggregates recognized but
rejected downstream). -/
inductive SqlExpr where
  | columnRef (tbl : Option String) (column : String)
  | literal (v : LitValue)
  | aggregate (fn : String) (arg : String)
deriving Repr, DecidableEq

/-- Modelled from the spec (§3): `Predicate` tagged variant. -/
inductive SqlPredicate where
  | comparison (l : SqlExpr) (op : CmpOp) (r : SqlExpr)
  | and (p q : SqlPredicate)
  | or (p q : SqlPredicate)
  | not (p : SqlPredicate)
deriving Repr, DecidableEq

/-- Modelled from the spec (§3): `TableRef \x7btable, alias\x7d`. -/
structure TableRef where
  table : String
  aliasName : Option String
deriving Repr, DecidableEq

/-- Modelled from the spec (§3): join kinds. -/
inductive JoinKind where
  | inner | left | right | full
deriving Repr, DecidableEq

/-- Modelled from the spec (§3): a `JOIN` clause (joined table, `ON`
predicate, kind). -/
structure SqlJoin where
  tableRef : TableRef
  onPred : SqlPredicate
  kind : JoinKind
deriving Repr, DecidableEq

/-- Modelled from the spec (§3, §4.5): write-statement kinds, always
rejected downstream. -/
inductive WriteKind where
  | insert | update | delete | drop | alter | truncate
deriving Repr, DecidableEq

/-- Modelled from the spec (§3): `Statement` tagged variant.
`unsupportedClause` records a `GROUP BY`/`ORDER BY`/`HAVING`/`LIMIT`
keyword that parsed but is outside the supported subset (§4.1: these parse
but are rejected with a specific diagnostic, not silently dropped). -/
inductive Statement where
  | select (projections : List SqlExpr) (fromTables : List TableRef)
      (joins : List SqlJoin) (whereClause : Option SqlPredicate)
      (unsupportedClause : Option String)
  | write (kind : WriteKind) (table : String)
deriving Repr, DecidableEq

/-- Modelled from the spec (§4.1): `SyntaxError \x7bposition, expected,
found\x7d`. -/
structure SyntaxError where
  position : Nat
  expected : String
  found : String
deriving Repr, DecidableEq

/-! ## Gauntlet core — SQL Parser (stage-1 engine) -/

/-- Word accumulator step of the SQL lexer: words are maximal runs of
non-whitespace characters, with commas and parentheses as their own
words. -/
def sqlWordsAux : List Char → List Char → List String
  | [], acc => if acc.isEmpty then [] else [acc.reverse.asString]
  | c :: rest, acc =>
      if c.isWhitespace then
        (if acc.isEmpty then [] else [acc.reverse.asString]) ++
        sqlWordsAux rest []
      else if c = ',' ∨ c = '(' ∨ c = ')' then
        (if acc.isEmpty then [] else [acc.reverse.asString]) ++
        [String.singleton c] ++ sqlWordsAux rest []
      else sqlWordsAux rest (c :: acc)

/-- Word-level lexer for the supported SQL subset. -/
def sqlWords (s : String) : List String := sqlWordsAux s.toList []

/-- Keywords that terminate a table reference. -/
def sqlKeywords : List String :=
  ["SELECT", "FROM", "WHERE", "JOIN", "INNER", "LEFT", "RIGHT", "FULL",
   "ON", "AND", "OR", "NOT", "GROUP", "ORDER", "HAVING", "LIMIT"]

/-- Parse one projection/term word: `t.c` qualified column, integer
literal, quoted string literal, else an unqualified column reference. -/
def parseExprWord (w : String) : SqlExpr :=
  match splitDot w with
  | [t, c] =>
      if (toIntLex t).isSome then .literal (.strLit w)
      else .columnRef (some t) c
  | _ =>
      match toIntLex w with
      | some n => .literal (.intLit n)
      | none =>
          if startsWithQuote w then
            .literal (.strLit ((w.toList.drop 1).dropLast.asString))
          else .columnRef none w

/-- Parse one projection group (the words between commas in the `SELECT`
list): a single term, or `fn ( arg )` recognized as an `Aggregate`. -/
def parseProjection (ws : List String) : Option SqlExpr :=
  match ws with
  | [w] => some (parseExprWord w)
  | [fn, "(", arg, ")"] => some (.aggregate fn arg)
  | _ => none

/-- Map an operator word to a `CmpOp`. -/
def opOfWord (w : String) : Option CmpOp :=
  match w with
  | "=" => some .eq | "<" => some .lt | ">" => some .gt
  | "<=" => some .le | ">=" => some .ge | "<>" => some .ne
  | "!=" => some .ne
  | _ => none

/-- Parse a single comparison `term op term`. -/
def parseCmp (ws : List String) : Option (SqlPredicate × List String) :=
  match ws with
  | l :: opw :: r :: rest =>
      match opOfWord opw with
      | some op =>
          some (.comparison (parseExprWord l) op (parseExprWord r), rest)
      | none => none
  | _ => none

mutual

/-- Parse one predicate unit: parenthesized predicate, `NOT` unit, or a
comparison. -/
def parsePredUnit : Nat → List String → Option (SqlPredicate × List String)
  | 0, _ => none
  | fuel + 1, ws =>
      match ws with
      | "(" :: rest =>
          match parsePredicate fuel rest with
          | some (p, ")" :: rest') => some (p, rest')
          | _ => none
      | w :: rest =>
          if upStr w = "NOT" then
            (parsePredUnit fuel rest).map (fun pr => (.not pr.1, pr.2))
          else parseCmp (w :: rest)
      | [] => none

/-- Parse a predicate: a unit optionally followed by `AND`/`OR` and a
further predicate (right-associated chain). -/
def parsePredicate : Nat → List String → Option (SqlPredicate × List String)
  | 0, _ => none
  | fuel + 1, ws =>
      match parsePredUnit fuel ws with
      | some (p, w :: rest) =>
          if upStr w = "AND" then
            (parsePredicate fuel rest).map (fun qr => (.and p qr.1, qr.2))
          else if upStr w = "OR" then
            (parsePredicate fuel rest).map (fun qr => (.or p qr.1, qr.2))
          else some (p, w :: rest)
      | r => r

end

/-- Parse one table reference with optional alias word. -/
def parseTableRef (ws : List String) : Option (TableRef × List String) :=
  match ws with
  | t :: rest =>
      if upStr t ∈ sqlKeywords ∨ t ∈ ["(", ")", ","] then none
      else
        match rest with
        | a :: rest' =>
            if upStr a ∈ sqlKeywords ∨ a ∈ ["(", ")", ","] then
              some (⟨t, none⟩, rest)
            else some (⟨t, some a⟩, rest')
        | [] => some (⟨t, none⟩, [])
  | [] => none

/-- Parse the comma-separated `FROM` table list. -/
def parseFromList : Nat → List String →
    Option (List TableRef × List String)
  | 0, _ => none
  | fuel + 1, ws =>
      match parseTableRef ws with
      | some (tr, "," :: rest) =>
          (parseFromList fuel rest).map (fun p => (tr :: p.1, p.2))
      | some (tr, rest) => some ([tr], rest)
      | none => none

/-- Parse the chain of `JOIN` clauses (`[INNER|LEFT|RIGHT|FULL] JOIN t [a]
ON cmp`). -/
def parseJoins : Nat → List String → Option (List SqlJoin × List String)
  | 0, _ => none
  | fuel + 1, ws =>
      let kindAndRest : Option (JoinKind × List String) :=
        match ws with
        | w :: rest =>
            match upStr w with
            | "JOIN" => some (.inner, rest)
            | "INNER" =>
                match rest with
                | j :: r => if upStr j = "JOIN" then some (.inner, r)
                            else none
                | [] => none
            | "LEFT" =>
                match rest with
                | j :: r => if upStr j = "JOIN" then some (.left, r)
                            else none
                | [] => none
            | "RIGHT" =>
                match rest with
                | j :: r => if upStr j = "JOIN" then some (.right, r)
                            else none
                | [] => none
            | "FULL" =>
                match rest with
                | j :: r => if upStr j = "JOIN" then some (.full, r)
                            else none
                | [] => none
            | _ => none
        | [] => none
      match kindAndRest with
      | none => some ([], ws)
      | some (k, r1) =>
          match parseTableRef r1 with
          | some (tr, onw :: r2) =>
              if upStr onw = "ON" then
                match parseCmp r2 with
                | some (onPred, r3) =>
                    (parseJoins fuel r3).map
                      (fun p => (⟨tr, onPred, k⟩ :: p.1, p.2))
                | none => none
              else none
          | _ => none

/-- Split a word list on comma separators. -/
def splitCommas (ws : List String) : List (List String) :=
  ws.splitOn ","

/-- Parse the tail of a `SELECT` statement (the words after the keyword). -/
def parseSelect (ws : List String) : Except SyntaxError Statement :=
  let projWords := ws.takeWhile (fun w => upStr w ≠ "FROM")
  let rest0 := ws.dropWhile (fun w => upStr w ≠ "FROM")
  match rest0 with
  | [] => .error ⟨0, "FROM", "end of input"⟩
  | _fromKw :: rest1 =>
      if projWords.isEmpty then
        .error ⟨0, "projection list", "FROM"⟩
      else
        match (splitCommas projWords).mapM parseProjection with
        | none => .error ⟨0, "projection", "unparsable projection"⟩
        | some projections =>
            match parseFromList (rest1.length + 1) rest1 with
            | none => .error ⟨0, "table reference", "malformed FROM list"⟩
            | some (fromTables, rest2) =>
                match parseJoins (rest2.length + 1) rest2 with
                | none => .error ⟨0, "JOIN clause", "malformed JOIN"⟩
                | some (joins, rest3) =>
                    match rest3 with
                    | [] => .ok (.select projections fromTables joins
                                  none none)
                    | w :: rest4 =>
                        if upStr w = "WHERE" then
                          match parsePredicate (rest4.length + 1) rest4 with
                          | none =>
                              .error ⟨0, "predicate", "malformed WHERE"⟩
                          | some (p, []) =>
                              .ok (.select projections fromTables joins
                                    (some p) none)
                          | some (p, g :: _) =>
                              if upStr g ∈
                                  ["GROUP", "ORDER", "HAVING", "LIMIT"] then
                                .ok (.select projections fromTables joins
                                      (some p) (some (upStr g)))
                              else
                                .error ⟨0, "end of statement", g⟩
                        else if upStr w ∈
                            ["GROUP", "ORDER", "HAVING", "LIMIT"] then
                          .ok (.select projections fromTables joins none
                                (some (upStr w)))
                        else .error ⟨0, "WHERE or end of statement", w⟩

/-- Modelled from the spec (§4.1): the SQL Parser.  A statement whose
top-level keyword is one of the write kinds parses into `Write` (the
parser's job is only grammaticality; writes are rejected at stage 3);
`SELECT` parses the supported grammar subset; anything else is a
`SyntaxError`. -/
def parseSQL (s : String) : Except SyntaxError Statement :=
  match sqlWords s with
  | [] => .error ⟨0, "SQL statement", "end of input"⟩
  | kw :: rest =>
      match upStr kw with
      | "SELECT" => parseSelect rest
      | "INSERT" =>
          match rest with
          | into :: t :: _ =>
              if upStr into = "INTO" then .ok (.write .insert t)
              else .error ⟨0, "INTO", into⟩
          | _ => .error ⟨0, "INTO table", "end of input"⟩
      | "UPDATE" =>
          match rest with
          | t :: _ => .ok (.write .update t)
          | [] => .error ⟨0, "table name", "end of input"⟩
      | "DELETE" =>
          match rest with
          | fromw :: t :: _ =>
              if upStr fromw = "FROM" then .ok (.write .delete t)
              else .error ⟨0, "FROM", fromw⟩
          | _ => .error ⟨0, "FROM table", "end of input"⟩
      | "DROP" =>
          match rest with
          | tbl :: t :: _ =>
              if upStr tbl = "TABLE" then .ok (.write .drop t)
              else .error ⟨0, "TABLE", tbl⟩
          | _ => .error ⟨0, "TABLE name", "end of input"⟩
      | "ALTER" =>
          match rest with
          | tbl :: t :: _ =>
              if upStr tbl = "TABLE" then .ok (.write .alter t)
              else .error ⟨0, "TABLE", tbl⟩
          | _ => .error ⟨0, "TABLE name", "end of input"⟩
      | "TRUNCATE" =>
          match rest with
          | tbl :: t :: _ =>
              if upStr tbl = "TABLE" then .ok (.write .truncate t)
              else .error ⟨0, "TABLE", tbl⟩
          | t :: [] => .ok (.write .truncate t)
          | [] => .error ⟨0, "TABLE name", "end of input"⟩
      | other => .error ⟨0, "SELECT or a write keyword", other⟩

/-! ## Gauntlet core — Semantic Validator (stage 2) -/

/-- Modelled from the spec (§7): `SemanticError` taxonomy. -/
inductive SemanticError where
  | unknownTable (name : String)
  | unknownColumn (name : String)
  | ambiguousColumn (name : String) (candidates : List String)
  | typeMismatch (detail : String)
deriving Repr, DecidableEq

/-- Case-insensitive table lookup in the Schema Graph (§4.3: resolve
against Schema Graph tables, case-insensitive exact match). -/
def findTable (g : SchemaGraph) (name : String) : Option Table :=
  g.tables.find? (fun t => lowStr t.name = lowStr name)

/-- Case-insensitive column lookup within a table. -/
def findColumn (t : Table) (name : String) : Option Column :=
  t.columns.find? (fun c => lowStr c.name = lowStr name)

/-- The table references in scope: `FROM` tables then `JOIN` sides. -/
def Statement.scope : Statement → List TableRef
  | .select _ fromTables joins _ _ => fromTables ++ joins.map (·.tableRef)
  | .write _ _ => []

/-- Does a table reference answer to the qualifier `q` (alias or
case-insensitive table name)? -/
def TableRef.answersTo (tr : TableRef) (q : String) : Bool :=
  tr.aliasName = some q ∨ lowStr tr.table = lowStr q

/-- Resolve a column reference against the scope (§4.3): qualified
references resolve against their table; unqualified ones are searched in
all tables in scope; zero matches is `UnknownColumn`, several is
`AmbiguousColumn` listing all candidate tables. -/
def resolveColumn (g : SchemaGraph) (scope : List TableRef)
    (tbl? : Option String) (col : String) :
    Except SemanticError ColType :=
  if col = "*" then .ok .INTEGER
  else
    match tbl? with
    | some q =>
        match scope.find? (fun tr => tr.answersTo q) with
        | none => .error (.unknownTable q)
        | some tr =>
            match findTable g tr.table with
            | none => .error (.unknownTable tr.table)
            | some t =>
                match findColumn t col with
                | none => .error (.unknownColumn col)
                | some c => .ok c.type
    | none =>
        let candidates := scope.filterMap fun tr =>
          (findTable g tr.table).bind fun t =>
            (findColumn t col).map fun c => (tr.table, c.type)
        match candidates with
        | [] => .error (.unknownColumn col)
        | [(_, ty)] => .ok ty
        | cs => .error (.ambiguousColumn col (cs.map (·.1)))

/-- Are two column types comparable (§4.3): identical, or
INTEGER/DECIMAL numeric-compatible? -/
def typesCompatible (a b : ColType) : Bool :=
  a = b ∨ (a ∈ [ColType.INTEGER, ColType.DECIMAL] ∧
           b ∈ [ColType.INTEGER, ColType.DECIMAL])

/-- Is a literal parseable as a value of the given column type (§4.3)? -/
def literalFits (v : LitValue) : ColType → Bool
  | .INTEGER => (match v with | .intLit _ => true | .strLit _ => false)
  | .DECIMAL => (match v with | .intLit _ => true | .strLit _ => false)
  | .VARCHAR => (match v with | .intLit _ => false | .strLit _ => true)
  | .DATE => (match v with | .intLit _ => false | .strLit _ => true)
  | .BOOLEAN =>
      (match v with
       | .intLit _ => false
       | .strLit s => lowStr s = "true" ∨ lowStr s = "false")

/-- Semantic errors of one expression in projection or predicate
position. -/
def exprErrors (g : SchemaGraph) (scope : List TableRef) :
    SqlExpr → List SemanticError
  | .columnRef tbl? col =>
      match resolveColumn g scope tbl? col with
      | .ok _ => []
      | .error e => [e]
  | .literal _ => []
  | .aggregate _ _ => []

/-- Semantic errors of one comparison (§4.3): both operands must resolve
and be type-compatible; a column compared against a literal requires the
literal to be parseable as the column's type. -/
def comparisonErrors (g : SchemaGraph) (scope : List TableRef)
    (l : SqlExpr) (r : SqlExpr) : List SemanticError :=
  match l, r with
  | .columnRef t1 c1, .columnRef t2 c2 =>
      match resolveColumn g scope t1 c1, resolveColumn g scope t2 c2 with
      | .ok ty1, .ok ty2 =>
          if typesCompatible ty1 ty2 then []
          else [.typeMismatch (c1 ++ " vs " ++ c2)]
      | .error e1, .ok _ => [e1]
      | .ok _, .error e2 => [e2]
      | .error e1, .error e2 => [e1, e2]
  | .columnRef t1 c1, .literal v =>
      match resolveColumn g scope t1 c1 with
      | .ok ty => if literalFits v ty then []
                  else [.typeMismatch (c1 ++ " vs literal")]
      | .error e => [e]
  | .literal v, .columnRef t2 c2 =>
      match resolveColumn g scope t2 c2 with
      | .ok ty => if literalFits v ty then []
                  else [.typeMismatch (c2 ++ " vs literal")]
      | .error e => [e]
  | _, _ => []

/-- Collect the semantic errors of a predicate (errors are collected, not
short-circuited, §4.3). -/
def predicateErrors (g : SchemaGraph) (scope : List TableRef) :
    SqlPredicate → List SemanticError
  | .comparison l _ r => comparisonErrors g scope l r
  | .and p q => predicateErrors g scope p ++ predicateErrors g scope q
  | .or p q => predicateErrors g scope p ++ predicateErrors g scope q
  | .not p => predicateErrors g scope p

/-- Modelled from the spec (§4.3): the Semantic Validator.  Walks the AST
against the Schema Graph, resolving every table and column reference,
checking join-key and comparison type compatibility, and collecting all
errors.  For a write statement only the target table is resolved (scenario
3: `DROP TABLE employees` passes stage 2 when the table exists). -/
def semanticErrors (g : SchemaGraph) : Statement → List SemanticError
  | .write _ table =>
      match findTable g table with
      | some _ => []
      | none => [.unknownTable table]
  | stmt@(.select projections _ joins whereClause _) =>
      let scope := stmt.scope
      let tableErrs := scope.filterMap fun tr =>
        match findTable g tr.table with
        | some _ => none
        | none => some (SemanticError.unknownTable tr.table)
      let projErrs := projections.flatMap (exprErrors g scope)
      let joinErrs := joins.flatMap fun j =>
        predicateErrors g scope j.onPred
      let whereErrs :=
        match whereClause with
        | none => []
        | some p => predicateErrors g scope p
      tableErrs ++ projErrs ++ joinErrs ++ whereErrs

/-! ## Gauntlet core — TRC formulas -/

/-- Right-hand side of an `AttrComparison` (§3: `valueOrAttr2`): either a
literal lexeme or another variable's attribute. -/
inductive CmpRhs where
  | lit (lex : String)
  | attr (var2 : String) (attr2 : String)
deriving Repr, DecidableEq

/-- Modelled from the spec (§3): the TRC formula tagged variant. -/
inductive Formula where
  | relationAtom (v : String) (tableName : String)
  | attrComparison (v : String) (attr : String) (op : CmpOp) (rhs : CmpRhs)
  | and (l r : Formula)
  | or (l r : Formula)
  | not (f : Formula)
  | ex (v : String) (body : Formula)
  | all (v : String) (body : Formula)
deriving Repr, DecidableEq

/-- Modelled from the spec (§3): a TRC query `\x7bt | φ(t)\x7d` carries a
distinguished free (output) tuple variable and a projection list. -/
structure TRCQuery where
  freeVar : String
  projection : List String
  body : Formula
deriving Repr, DecidableEq

/-- Variables that have a conjoined `RelationAtom` at the top of a formula
(reachable through `And` nodes only — not disjoined, not negated, not
under a quantifier). -/
def conjVars : Formula → List String
  | .relationAtom v _ => [v]
  | .and l r => conjVars l ++ conjVars r
  | _ => []

/-- Free variables of a formula. -/
def freeVarsF : Formula → List String
  | .relationAtom v _ => [v]
  | .attrComparison v _ _ rhs =>
      v :: (match rhs with | .lit _ => [] | .attr v2 _ => [v2])
  | .and l r => freeVarsF l ++ freeVarsF r
  | .or l r => freeVarsF l ++ freeVarsF r
  | .not f => freeVarsF f
  | .ex v b => (freeVarsF b).filter (· ≠ v)
  | .all v b => (freeVarsF b).filter (· ≠ v)

/-! ## Gauntlet core — Safety Checker (stage 3) -/

/-- Modelled from the spec (§7): `LogicalSecurityError` taxonomy. -/
inductive LogicalError where
  | writeOperationForbidden
  | unsupportedConstruct (what : String)
  | unsafeFormula (v : String)
  | ambiguousQuantifier (v : String)
deriving Repr, DecidableEq

/-- Modelled from the spec (§4.5, check 3): the range-restriction scan.
`outer` is the set of variables already restricted by conjoined atoms of
enclosing conjunctions.  Collects (non-short-circuiting) each variable
that violates the rule: a quantifier whose variable has no conjoined atom
in its scope, or a negation one of whose free variables is not restricted
outside the negation. -/
def unsafeVars (outer : List String) : Formula → List String
  | .relationAtom _ _ => []
  | .attrComparison _ _ _ _ => []
  | .and l r =>
      unsafeVars (outer ++ conjVars l ++ conjVars r) l ++
      unsafeVars (outer ++ conjVars l ++ conjVars r) r
  | .or l r => unsafeVars outer l ++ unsafeVars outer r
  | .not f =>
      (freeVarsF f).filter (fun v => decide (v ∉ outer)) ++
      unsafeVars outer f
  | .ex v b =>
      (if v ∈ conjVars b then [] else [v]) ++
      unsafeVars (outer.filter (· ≠ v) ++ conjVars b) b
  | .all v b =>
      (if v ∈ conjVars b then [] else [v]) ++
      unsafeVars (outer.filter (· ≠ v) ++ conjVars b) b

/-- Variables of a whole TRC query violating range-restriction: the free
head variable needs a conjoined atom in the body, and the body is scanned
with the head's restrictions as the enclosing environment. -/
def unsafeQueryVars (q : TRCQuery) : List String :=
  (if q.freeVar ∈ conjVars q.body then [] else [q.freeVar]) ++
  unsafeVars (conjVars q.body) q.body

/-- `RelationAtom` bindings `(variable, table)` visible from outside a
formula (bindings of a quantified variable stay inside its scope). -/
def atomBindings : Formula → List (String × String)
  | .relationAtom v T => [(v, T)]
  | .attrComparison _ _ _ _ => []
  | .and l r => atomBindings l ++ atomBindings r
  | .or l r => atomBindings l ++ atomBindings r
  | .not f => atomBindings f
  | .ex v b => (atomBindings b).filter (fun p => p.1 ≠ v)
  | .all v b => (atomBindings b).filter (fun p => p.1 ≠ v)

/-- The distinct tables a variable is bound to by visible atoms. -/
def bindingsFor (v : String) (f : Formula) : List String :=
  (((atomBindings f).filter (fun p => p.1 = v)).map (·.2)).dedup

/-- Modelled from the spec (§4.5, check 4): variables reused across two
different `RelationAtom` table bindings in overlapping scope. -/
def quantConflicts : Formula → List String
  | .relationAtom _ _ => []
  | .attrComparison _ _ _ _ => []
  | .and l r => quantConflicts l ++ quantConflicts r
  | .or l r => quantConflicts l ++ quantConflicts r
  | .not f => quantConflicts f
  | .ex v b =>
      (if 2 ≤ (bindingsFor v b).length then [v] else []) ++ quantConflicts b
  | .all v b =>
      (if 2 ≤ (bindingsFor v b).length then [v] else []) ++ quantConflicts b

/-- Ambiguous-quantifier errors of a whole query (head variable scope plus
every quantifier scope). -/
def ambiguousQueryVars (q : TRCQuery) : List String :=
  (if 2 ≤ (bindingsFor q.freeVar q.body).length then [q.freeVar] else []) ++
  quantConflicts q.body

/-! ## Gauntlet core — TRC Translator (§4.4) -/

/-- Result of SQL→TRC translation: the query plus any flags raised for
constructs the translator cannot render safely (§4.4:
`UnsupportedJoinShape` rather than an unsafe formula). -/
structure Translation where
  query : TRCQuery
  unsupportedFlags : List String
deriving Repr, DecidableEq

/-- Literal lexeme rendering used in TRC formulas. -/
def litLex : LitValue → String
  | .intLit n => toString n
  | .strLit s => "\"" ++ s ++ "\""

/-- Mirror a comparison operator (for literal-on-the-left comparisons). -/
def CmpOp.mirror : CmpOp → CmpOp
  | .eq => .eq | .lt => .gt | .gt => .lt
  | .le => .ge | .ge => .le | .ne => .ne

/-- Modelled from the spec (§4.4): assign one fresh bound tuple variable
per table reference in `FROM`-then-`JOIN` order (`t0, t1, …`). -/
def varAssign (scope : List TableRef) : List (TableRef × String) :=
  scope.enum.map fun p => (p.2, "t" ++ toString p.1)

/-- The variable a qualifier resolves to (the first table's variable for
unqualified references). -/
def varOf (vm : List (TableRef × String)) (q? : Option String) : String :=
  match q? with
  | some q => (((vm.find? fun p => p.1.answersTo q).map (·.2))).getD "t0"
  | none => "t0"

/-- Translate an expression into a comparison right-hand side. -/
def exprToRhs (vm : List (TableRef × String)) : SqlExpr → Option CmpRhs
  | .columnRef q c => some (.attr (varOf vm q) c)
  | .literal v => some (.lit (litLex v))
  | .aggregate _ _ => none

/-- Modelled from the spec (§4.4): structural translation of an AST
predicate (`Comparison`→`AttrComparison`, `And`/`Or`/`Not` recurse 1:1). -/
def predToFormula (vm : List (TableRef × String)) :
    SqlPredicate → Option Formula
  | .comparison l op r =>
      match l with
      | .columnRef q c =>
          (exprToRhs vm r).map (Formula.attrComparison (varOf vm q) c op)
      | .literal v =>
          match r with
          | .columnRef q c =>
              some (.attrComparison (varOf vm q) c op.mirror
                     (.lit (litLex v)))
          | _ => none
      | .aggregate _ _ => none
  | .and p q =>
      (predToFormula vm p).bind fun fp =>
        (predToFormula vm q).map (Formula.and fp)
  | .or p q =>
      (predToFormula vm p).bind fun fp =>
        (predToFormula vm q).map (Formula.or fp)
  | .not p => (predToFormula vm p).map Formula.not

/-- Conjunction of a list of formulas (left formula first). -/
def bigAnd : List Formula → Formula
  | [] => .relationAtom "t0" "empty"
  | [f] => f
  | f :: fs => .and f (bigAnd fs)

/-- Modelled from the spec (§4.4): SQL→TRC.  One `RelationAtom` per table,
the join predicates and the `WHERE` predicate conjoined, head variable
`t0`, projection read off the select list.  `LEFT`/`RIGHT`/`FULL` joins
and untranslatable predicates raise flags instead of emitting an unsafe
formula.  Write statements are not translated. -/
def translateStatement : Statement → Option Translation
  | .write _ _ => none
  | .select projections fromTables joins whereClause _ =>
      let scope := fromTables ++ joins.map (·.tableRef)
      let vm := varAssign scope
      let atoms := vm.map fun p => Formula.relationAtom p.2 p.1.table
      let joinFs := joins.filterMap fun j =>
        if j.kind = .inner then predToFormula vm j.onPred else none
      let joinFlags := joins.filterMap fun j =>
        if j.kind ≠ .inner then some "UnsupportedJoinShape"
        else if (predToFormula vm j.onPred).isNone then
          some "UntranslatablePredicate"
        else none
      let whereF := whereClause.bind (predToFormula vm)
      let whereFlags :=
        match whereClause with
        | some _ => if whereF.isNone then ["UntranslatablePredicate"] else []
        | none => []
      let projection := projections.filterMap fun
        | .columnRef _ c => some c
        | _ => none
      some ⟨⟨"t0", projection, bigAnd (atoms ++ joinFs ++ whereF.toList)⟩,
            joinFlags ++ whereFlags⟩

/-- Does any expression of the statement use an `Aggregate`? -/
def SqlExpr.isAgg : SqlExpr → Bool
  | .aggregate _ _ => true
  | _ => false

/-- Does a predicate mention an `Aggregate` expression? -/
def predHasAgg : SqlPredicate → Bool
  | .comparison l _ r => l.isAgg ∨ r.isAgg
  | .and p q => predHasAgg p ∨ predHasAgg q
  | .or p q => predHasAgg p ∨ predHasAgg q
  | .not p => predHasAgg p

/-- Does the statement mention an `Aggregate` anywhere? -/
def Statement.hasAggregate : Statement → Bool
  | .select projections _ joins whereClause _ =>
      projections.any SqlExpr.isAgg ||
      joins.any (fun j => predHasAgg j.onPred) ||
      (match whereClause with | some p => predHasAgg p | none => false)
  | .write _ _ => false

/-- Modelled from the spec (§4.5): the Safety Checker.  Checks in order,
non-short-circuiting: write rejection, unsupported constructs (aggregates
and translator flags), range-restriction, ambiguous quantifier scope. -/
def logicalErrors (stmt : Statement) (tr : Option Translation) :
    List LogicalError :=
  (match stmt with
   | .write _ _ => [LogicalError.writeOperationForbidden]
   | _ => []) ++
  (if stmt.hasAggregate then [LogicalError.unsupportedConstruct "Aggregate"]
   else []) ++
  (match tr with
   | none => []
   | some t =>
       t.unsupportedFlags.map LogicalError.unsupportedConstruct ++
       (unsafeQueryVars t.query).map LogicalError.unsafeFormula ++
       (ambiguousQueryVars t.query).map LogicalError.ambiguousQuantifier)

/-! ## Gauntlet core — TRC→readable (§4.4) -/

/-- Token sequence of a comparison right-hand side. -/
def rhsToks : CmpRhs → List String
  | .lit lex => [lex]
  | .attr v2 a2 => [v2, ".", a2]

/-- Modelled from the spec (§4.4): the canonical symbolic rendering of a
formula as its token sequence, fully parenthesized, using `∃`, `∀`, `∧`,
`∨`, `¬` and `∈`. -/
def toks : Formula → List String
  | .relationAtom v T => [v, "∈", T]
  | .attrComparison v a op rhs => [v, ".", a, op.render] ++ rhsToks rhs
  | .and l r => ["("] ++ toks l ++ ["∧"] ++ toks r ++ [")"]
  | .or l r => ["("] ++ toks l ++ ["∨"] ++ toks r ++ [")"]
  | .not f => ["¬", "("] ++ toks f ++ [")"]
  | .ex v b => ["∃", v, "("] ++ toks b ++ [")"]
  | .all v b => ["∀", v, "("] ++ toks b ++ [")"]

/-- Join the canonical tokens with single spaces into the symbolic
string. -/
def joinWords : List String → String
  | [] => ""
  | [w] => w
  | w :: ws => w ++ " " ++ joinWords ws

/-- The canonical symbolic string of a formula. -/
def renderSymbolicF (f : Formula) : String := joinWords (toks f)

/-- The canonical symbolic string of a whole query, in set-builder
notation. -/
def renderSymbolic (q : TRCQuery) : String :=
  joinWords (["\x7b", q.freeVar, "|"] ++ toks q.body ++ ["\x7d"])

/-- English gloss of a comparison right-hand side. -/
def glossRhs : CmpRhs → String
  | .lit lex => lex
  | .attr v2 a2 => v2 ++ "." ++ a2

/-- Modelled from the spec (§4.4): the natural-language gloss, built
compositionally (`RelationAtom` → "t is a row of TABLE", `And` → "and",
`Exists` → "there exists a ROW such that BODY", …). -/
def gloss : Formula → String
  | .relationAtom v T => v ++ " is a row of " ++ T
  | .attrComparison v a op rhs =>
      v ++ "." ++ a ++ " " ++ op.render ++ " " ++ glossRhs rhs
  | .and l r => gloss l ++ " and " ++ gloss r
  | .or l r => gloss l ++ " or " ++ gloss r
  | .not f => "not " ++ gloss f
  | .ex v b => "there exists a " ++ v ++ " such that " ++ gloss b
  | .all v b => "for every " ++ v ++ " it holds that " ++ gloss b

/-- English gloss of a whole query. -/
def glossQuery (q : TRCQuery) : String :=
  "the set of rows " ++ q.freeVar ++ " such that " ++ gloss q.body

/-- Modelled from the spec (§4.4): `TRC→readable` — the total rendering
function producing the canonical symbolic string and the natural-language
gloss of a formula. -/
def renderReadableF (f : Formula) : String × String :=
  (renderSymbolicF f, gloss f)

/-! ## Structural re-parser of the canonical symbolic token sequence -/

/-- Reserved symbol tokens of the canonical notation. -/
def reservedToks : List String :=
  ["(", ")", "∧", "∨", "¬", "∃", "∀", "∈", ".", "|", "\x7b", "\x7d",
   "=", "<", ">", "<=", ">=", "<>"]

/-- Is a string a plain identifier (letters, digits, underscores, starting
with a letter)? -/
def isIdent (s : String) : Bool :=
  !(s == "") &&
  (s.toList.all fun c => c.isAlpha || c.isDigit || c == '_') &&
  (match s.toList with | c :: _ => c.isAlpha | [] => false)

/-- Is a string usable as a literal lexeme in the canonical notation
(nonempty, not reserved, no dot, no space)? -/
def isLitLex (s : String) : Bool :=
  !(s == "") && !(reservedToks.contains s) &&
  !(s.toList.any fun c => c == '.' || c == ' ')

/-- Well-formedness of a comparison right-hand side for rendering. -/
def wfRhs : CmpRhs → Bool
  | .lit lex => isLitLex lex
  | .attr v2 a2 => isIdent v2 && isIdent a2

/-- Well-formedness of a formula for symbolic rendering: every identifier
is a plain identifier and every literal lexeme is a literal word. -/
def wfF : Formula → Bool
  | .relationAtom v T => isIdent v && isIdent T
  | .attrComparison v a _ rhs => isIdent v && isIdent a && wfRhs rhs
  | .and l r => wfF l && wfF r
  | .or l r => wfF l && wfF r
  | .not f => wfF f
  | .ex v b => isIdent v && wfF b
  | .all v b => isIdent v && wfF b

/-- Size of a formula (fuel bound for the re-parser). -/
def sizeF : Formula → Nat
  | .relationAtom _ _ => 1
  | .attrComparison _ _ _ _ => 1
  | .and l r => sizeF l + sizeF r + 1
  | .or l r => sizeF l + sizeF r + 1
  | .not f => sizeF f + 1
  | .ex _ b => sizeF b + 1
  | .all _ b => sizeF b + 1

/-- Parse a comparison right-hand side: `v2 . a2` or a literal lexeme. -/
def parseRhs (ts : List String) : Option (CmpRhs × List String) :=
  match ts with
  | [] => none
  | x :: rest =>
      match rest with
      | [] => some (.lit x, [])
      | y :: rest2 =>
          if y = "." then
            match rest2 with
            | a2 :: rest3 => some (.attr x a2, rest3)
            | [] => none
          else some (.lit x, rest)

/-- Structural re-parser of the canonical symbolic token sequence
(recursive descent with fuel).  Inverts `toks` on well-formed formulas. -/
def parseFToks : Nat → List String → Option (Formula × List String)
  | 0, _ => none
  | fuel + 1, ts =>
      match ts with
      | [] => none
      | t0 :: rest0 =>
          if t0 = "(" then
            match parseFToks fuel rest0 with
            | some (l, c :: rest1) =>
                if c = "∧" then
                  match parseFToks fuel rest1 with
                  | some (r, c2 :: rest2) =>
                      if c2 = ")" then some (.and l r, rest2) else none
                  | _ => none
                else if c = "∨" then
                  match parseFToks fuel rest1 with
                  | some (r, c2 :: rest2) =>
                      if c2 = ")" then some (.or l r, rest2) else none
                  | _ => none
                else none
            | _ => none
          else if t0 = "¬" then
            match rest0 with
            | p :: rest1 =>
                if p = "(" then
                  match parseFToks fuel rest1 with
                  | some (f, c :: rest2) =>
                      if c = ")" then some (.not f, rest2) else none
                  | _ => none
                else none
            | [] => none
          else if t0 = "∃" then
            match rest0 with
            | v :: p :: rest1 =>
                if p = "(" then
                  match parseFToks fuel rest1 with
                  | some (b, c :: rest2) =>
                      if c = ")" then some (.ex v b, rest2) else none
                  | _ => none
                else none
            | _ => none
          else if t0 = "∀" then
            match rest0 with
            | v :: p :: rest1 =>
                if p = "(" then
                  match parseFToks fuel rest1 with
                  | some (b, c :: rest2) =>
                      if c = ")" then some (.all v b, rest2) else none
                  | _ => none
                else none
            | _ => none
          else
            match rest0 with
            | [] => none
            | t1 :: rest1 =>
                if t1 = "∈" then
                  match rest1 with
                  | T :: rest2 => some (.relationAtom t0 T, rest2)
                  | [] => none
                else if t1 = "." then
                  match rest1 with
                  | a :: opw :: rest2 =>
                      match opOfWord opw with
                      | some op =>
                          (parseRhs rest2).map fun pr =>
                            (.attrComparison t0 a op pr.1, pr.2)
                      | none => none
                  | _ => none
                else none

/-- Tokens allowed to follow a complete subformula during re-parsing. -/
def restOk : List String → Bool
  | [] => true
  | t :: _ => t ∈ ["∧", "∨", ")"]

/-- Structurally re-parse a symbolic token sequence into a formula
(consuming the whole sequence). -/
def reparseF (ts : List String) : Option Formula :=
  match parseFToks (ts.length + 1) ts with
  | some (f, []) => some f
  | _ => none

/-! ## Gauntlet core — Orchestrator (§4.6) -/

/-- Outcome of one stage in the final report: executed with a verdict and
diagnostics, or skipped because an earlier stage failed. -/
inductive StageOutcome where
  | ran (valid : Bool) (errors : List String)
  | skipped
deriving Repr, DecidableEq

/-- The `trc` member of the result record:
`\x7bformula_text, natural_language\x7d`. -/
structure TrcOut where
  formula_text : String
  natural_language : String
deriving Repr, DecidableEq

/-- Modelled from the spec (§6): the Gauntlet result record
`\x7b overall_valid, syntactic, semantic, logical, trc|null \x7d`. -/
structure GauntletReport where
  overall_valid : Bool
  syntactic : StageOutcome
  semantic : StageOutcome
  logical : StageOutcome
  trc : Option TrcOut
deriving Repr, DecidableEq

/-- Render a syntax error for the report. -/
def renderSyntaxError (e : SyntaxError) : String :=
  "SyntaxError: expected " ++ e.expected ++ ", found " ++ e.found

/-- Render a semantic error for the report. -/
def renderSemanticError : SemanticError → String
  | .unknownTable n => "UnknownTable: " ++ n
  | .unknownColumn n => "UnknownColumn: " ++ n
  | .ambiguousColumn n cs =>
      "AmbiguousColumn: " ++ n ++ " (candidates: " ++ joinWords cs ++ ")"
  | .typeMismatch d => "TypeMismatch: " ++ d

/-- Render a logical/security error for the report. -/
def renderLogicalError : LogicalError → String
  | .writeOperationForbidden => "WriteOperationForbidden"
  | .unsupportedConstruct w => "UnsupportedConstruct: " ++ w
  | .unsafeFormula v => "UnsafeFormula: " ++ v
  | .ambiguousQuantifier v => "AmbiguousQuantifier: " ++ v

/-- Modelled from the spec (§4.2, §4.6): the Gauntlet Orchestrator.
Strictly linear `Syntactic → Semantic → TRC/Safety → Done`; advance only
while the current stage is valid, mark later stages skipped on failure,
and always return one structured report.  `overall_valid` is the
conjunction of the stages actually executed. -/
def runGauntlet (g : SchemaGraph) (sql : String) : GauntletReport :=
  match parseSQL sql with
  | .error e =>
      ⟨false, .ran false [renderSyntaxError e], .skipped, .skipped, none⟩
  | .ok stmt =>
      match stmt with
      | .select _ _ _ _ (some c) =>
          ⟨false, .ran false ["UnsupportedConstruct: " ++ c],
           .skipped, .skipped, none⟩
      | _ =>
          let semErrs := semanticErrors g stmt
          if semErrs.isEmpty then
            let tr := translateStatement stmt
            let logErrs := logicalErrors stmt tr
            ⟨logErrs.isEmpty, .ran true [], .ran true [],
             .ran logErrs.isEmpty (logErrs.map renderLogicalError),
             tr.map fun t => ⟨renderSymbolic t.query, glossQuery t.query⟩⟩
          else
            ⟨false, .ran true [],
             .ran false (semErrs.map renderSemanticError), .skipped, none⟩

/-- The verdicts of the stages that were actually executed, in pipeline
order. -/
def executedValids (r : GauntletReport) : List Bool :=
  [r.syntactic, r.semantic, r.logical].filterMap fun
    | .ran v _ => some v
    | .skipped => none

/-! ## Declarative range-restriction (the §4.5 safety invariant as a
predicate, independent of the error-collecting checker) -/

/-- `ConjAtom v f`: the variable `v` appears in a `RelationAtom` that is
conjoined at the top of `f` — reachable through `And` nodes only, so
neither disjoined, negated, nor under an inner quantifier. -/
inductive ConjAtom (v : String) : Formula → Prop
  | atom (T : String) : ConjAtom v (.relationAtom v T)
  | andL {l r : Formula} : ConjAtom v l → ConjAtom v (.and l r)
  | andR {l r : Formula} : ConjAtom v r → ConjAtom v (.and l r)

/-- `SafeF env f`: the range-restriction invariant of §4.5 over a formula,
where `env` lists the variables already restricted by conjoined atoms of
enclosing conjunctions.  Every quantifier binds a variable with a
conjoined `RelationAtom` in its own scope, and every negation's free
variables are restricted outside the negation. -/
inductive SafeF : List String → Formula → Prop
  | atom {env : List String} (v T : String) :
      SafeF env (.relationAtom v T)
  | cmp {env : List String} (v a : String) (op : CmpOp) (rhs : CmpRhs) :
      SafeF env (.attrComparison v a op rhs)
  | and {env : List String} {l r : Formula} :
      SafeF (env ++ conjVars l ++ conjVars r) l →
      SafeF (env ++ conjVars l ++ conjVars r) r →
      SafeF env (.and l r)
  | or {env : List String} {l r : Formula} :
      SafeF env l → SafeF env r → SafeF env (.or l r)
  | neg {env : List String} {f : Formula} :
      (∀ v ∈ freeVarsF f, v ∈ env) → SafeF env f → SafeF env (.not f)
  | ex {env : List String} {v : String} {b : Formula} :
      ConjAtom v b → SafeF (env.filter (· ≠ v) ++ conjVars b) b →
      SafeF env (.ex v b)
  | all {env : List String} {v : String} {b : Formula} :
      ConjAtom v b → SafeF (env.filter (· ≠ v) ++ conjVars b) b →
      SafeF env (.all v b)

/-- The range-restriction invariant of a whole TRC query: the free head
variable has a conjoined `RelationAtom` in the body, and the body
satisfies `SafeF` under the head's restrictions. -/
def QueryRangeRestricted (q : TRCQuery) : Prop :=
  ConjAtom q.freeVar q.body ∧ SafeF (conjVars q.body) q.body

/-! ## Concrete data for the spec scenarios (§8) -/

/-- The scenario schema of §8: `employees` and `departments`. -/
def empSchema : SchemaGraph :=
  ⟨[⟨"employees",
     [⟨"emp_id", .INTEGER, false⟩, ⟨"name", .VARCHAR, false⟩,
      ⟨"age", .INTEGER, true⟩, ⟨"department_id", .INTEGER, true⟩,
      ⟨"salary", .DECIMAL, true⟩],
     ["emp_id"], [⟨"department_id", "departments", "dept_id"⟩]⟩,
    ⟨"departments",
     [⟨"dept_id", .INTEGER, false⟩, ⟨"dept_name", .VARCHAR, false⟩],
     ["dept_id"], []⟩]⟩

/-- Scenario 1 formula: `t0 ∈ employees ∧ t0.age > 30`. -/
def demoFormula : Formula :=
  .and (.relationAtom "t0" "employees")
    (.attrComparison "t0" "age" .gt (.lit "30"))

/-- Scenario 1 query head. -/
def demoQuery : TRCQuery := ⟨"t0", ["name"], demoFormula⟩

/-- An unsafe query: the head variable is restricted only inside a
negation. -/
def demoUnsafeQuery : TRCQuery :=
  ⟨"t0", [], .not (.relationAtom "t0" "employees")⟩

/-- A vacuous select statement used to exercise the stage-3 checker on a
given translation. -/
def demoSelect : Statement := .select [] [] [] none none

end Text2SQL

deriving instance DecidableEq for Except

namespace Text2SQL

/-! # Theorems -/

/-! ## C8 — `apiService` error discipline -/

/-- Claim C8: for every call to `apiService.submitSchema` or
`apiService.generateSQL`, a successful POST returns `response.data`
unchanged, and any failure is rethrown as an `Error` whose message begins
with `"Failed to submit schema: "` respectively
`"Failed to generate SQL: "` — no failure is returned as a normal
value. -/
theorem c8_api_service (α : Type) (o : PostOutcome α) :
    match o with
    | .success r =>
        submitSchema o = .ok r.data ∧ generateSQL o = .ok r.data
    | .failure e =>
        submitSchema o = .error ⟨"Failed to submit schema: " ++ e.message⟩ ∧
        generateSQL o = .error ⟨"Failed to generate SQL: " ++ e.message⟩ :=
  by cases o <;> exact ⟨rfl, rfl⟩

/-! ## C9 — `OutputDisplay` missing-response fallback -/

/-- Claim C9: whenever the navigation state carries no response object,
`OutputDisplay` returns the "No Query Results Found" fallback view, a
value that depends on no field of the missing response. -/
theorem c9_output_display_fallback (fmt : String → String)
    (st : Option NavState) (h : st.bind (·.response) = none) :
    outputDisplay fmt st = .noResults (st.bind (·.database_id)) := by
  unfold outputDisplay
  rw [h]

/-- Witness for C9 at the concrete empty navigation state. -/
theorem c9_output_display_fallback_witness :
    outputDisplay id none = .noResults none :=
  c9_output_display_fallback id none rfl

/-! ## C10 — `handleGenerateSQL` guards and flag reset -/

/-- Claim C10: an invocation of `handleGenerateSQL` with an
empty/whitespace-only query or no database id issues no request and
performs no navigation; and every invocation that starts generating (the
query is non-blank) ends with `isGenerating` reset to `false`, on success
and failure alike. -/
theorem c10_handle_generate_sql (q : String) (db : Option String)
    (f : FetchOutcome) (g0 : Bool) :
    ((trimStr q = "" ∨ db = none) →
      (handleGenerateSQL q db f g0).requests = [] ∧
      (handleGenerateSQL q db f g0).navigations = []) ∧
    (trimStr q ≠ "" → (handleGenerateSQL q db f g0).isGenerating = false) :=
  by
  constructor
  · rintro (h | h)
    · simp [handleGenerateSQL, h]
    · subst h
      by_cases hq : trimStr q = "" <;> simp [handleGenerateSQL, hq]
  · intro h
    cases db <;> cases f <;> simp [handleGenerateSQL, h]

/-- Witness for C10: the blank-query and missing-id guards at concrete
inputs, and the flag reset after a failed fetch. -/
theorem c10_handle_generate_sql_witness :
    ((handleGenerateSQL " " none .notOk false).requests = [] ∧
     (handleGenerateSQL " " none .notOk false).navigations = []) ∧
    ((handleGenerateSQL "q" none .notOk false).requests = [] ∧
     (handleGenerateSQL "q" none .notOk false).navigations = []) ∧
    (handleGenerateSQL "q" (some "db1") (.threw ⟨"boom"⟩)
        true).isGenerating = false :=
  ⟨(c10_handle_generate_sql " " none .notOk false).1 (Or.inl (by decide)),
   (c10_handle_generate_sql "q" none .notOk false).1 (Or.inr rfl),
   (c10_handle_generate_sql "q" (some "db1") (.threw ⟨"boom"⟩) true).2
     (by decide)⟩

/-! ## C5 — determinism of the Gauntlet -/

/-- Claim C5 (spec-modelled): the Gauntlet is a pure function of the pair
(SQL text, Schema Graph snapshot); two runs on the same pair produce
identical reports.  In this embedding the orchestrator is a function, so
the report depends on nothing but its two arguments. -/
theorem c5_gauntlet_deterministic (g1 g2 : SchemaGraph) (s1 s2 : String)
    (hg : g1 = g2) (hs : s1 = s2) :
    runGauntlet g1 s1 = runGauntlet g2 s2 := by
  rw [hg, hs]

/-- Witness for C5 on a concrete pair. -/
theorem c5_gauntlet_deterministic_witness :
    runGauntlet empSchema "SELECT name FROM employees" =
    runGauntlet empSchema "SELECT name FROM employees" :=
  c5_gauntlet_deterministic empSchema empSchema
    "SELECT name FROM employees" "SELECT name FROM employees" rfl rfl

/-! ## C1 — result-record shape vs. the frontend consumer -/

/-- Counterexample to claim C1: the frontend result consumer does *not*
read the response under the spec's Gauntlet result shape.  It reads the
stage verdicts at `validation_status.…` — a path the specified shape does
not contain — and it reads neither the specified top-level `overall_valid`
nor `trc.formula_text`. -/
theorem c1_response_shape_counterexample :
    ["validation_status", "overall_valid"] ∈ outputDisplayReadPaths ∧
    ["validation_status", "overall_valid"] ∉ specResultPaths ∧
    ["overall_valid"] ∉ outputDisplayReadPaths ∧
    ["trc", "formula_text"] ∉ outputDisplayReadPaths ∧
    ["trc_explanation", "formula_text"] ∉ outputDisplayReadPaths := by
  decide

/-- Claim C1 as amended: the frontend reads the Gauntlet's validation
record nested under `validation_status` — with exactly the specified inner
stage shape (`syntactic`/`semantic`/`logical` each with `valid` and
`errors[]`, plus `overall_valid`) — and reads the TRC explanation under
`trc_explanation` with fields `trc`/`description`/`query`/`sql` instead of
`trc.formula_text`/`trc.natural_language`. -/
theorem c1_response_shape_amended :
    outputDisplayValidationPaths.Perm
      (specValidationPaths.map (fun p => "validation_status" :: p)) ∧
    ["trc_explanation", "trc"] ∈ outputDisplayReadPaths ∧
    ["trc_explanation", "description"] ∈ outputDisplayReadPaths ∧
    ["trc_explanation", "query"] ∈ outputDisplayReadPaths ∧
    ["trc_explanation", "sql"] ∈ outputDisplayReadPaths := by
  decide

/-! ## C2 — stage ordering and `overall_valid` -/

/-- Claim C2 (spec-modelled): for every input, if the syntactic stage
reports `valid = false` then the semantic and logical stages are both
reported skipped (never `valid: true`), and `overall_valid` equals the
conjunction of the verdicts of exactly the stages that executed. -/
theorem c2_stage_ordering (g : SchemaGraph) (sql : String) :
    (∀ errs, (runGauntlet g sql).syntactic = .ran false errs →
      (runGauntlet g sql).semantic = .skipped ∧
      (runGauntlet g sql).logical = .skipped) ∧
    (runGauntlet g sql).overall_valid =
      (executedValids (runGauntlet g sql)).all id := by
  unfold runGauntlet
  rcases hp : parseSQL sql with e | stmt
  · simp [executedValids]
  · rcases stmt with ⟨projections, fromTables, joins, whereClause, uc⟩ |
      ⟨k, tbl⟩
    · rcases uc with _ | c
      · by_cases hs : (semanticErrors g
            (.select projections fromTables joins whereClause none)).isEmpty
        · simp [hs, executedValids]
        · simp [hs, executedValids]
      · simp [executedValids]
    · by_cases hs : (semanticErrors g (.write k tbl)).isEmpty
      · simp [hs, executedValids]
      · simp [hs, executedValids]

/-- Witness for C2 on a concrete syntactically invalid input. -/
theorem c2_stage_ordering_witness :
    (runGauntlet empSchema "FOO").syntactic =
      .ran false
        ["SyntaxError: expected SELECT or a write keyword, found FOO"] ∧
    (runGauntlet empSchema "FOO").semantic = .skipped ∧
    (runGauntlet empSchema "FOO").logical = .skipped ∧
    (runGauntlet empSchema "FOO").overall_valid =
      ((executedValids (runGauntlet empSchema "FOO")).all id) := by
  refine ⟨by decide, ?_, ?_, (c2_stage_ordering empSchema "FOO").2⟩
  · exact ((c2_stage_ordering empSchema "FOO").1
      ["SyntaxError: expected SELECT or a write keyword, found FOO"]
      (by decide)).1
  · exact ((c2_stage_ordering empSchema "FOO").1
      ["SyntaxError: expected SELECT or a write keyword, found FOO"]
      (by decide)).2

/-! ## C4 — write statements rejected at stage 3, never at the parser -/

/-- Claim C4 (spec-modelled): every statement whose AST is tagged `Write`
passes stage 1 (the parser only judges grammaticality), and whenever
stage 2 passes as well, stage 3 fails with `WriteOperationForbidden`. -/
theorem c4_write_rejection (g : SchemaGraph) (sql : String) (k : WriteKind)
    (tbl : String) (h : parseSQL sql = .ok (.write k tbl)) :
    (runGauntlet g sql).syntactic = .ran true [] ∧
    ((runGauntlet g sql).semantic = .ran true [] →
      (runGauntlet g sql).logical =
        .ran false ["WriteOperationForbidden"]) := by
  unfold runGauntlet
  rw [h]
  by_cases hs : (semanticErrors g (.write k tbl)).isEmpty
  · simp [hs, logicalErrors, Statement.hasAggregate, translateStatement,
      renderLogicalError]
  · simp [hs]

/-- Witness for C4 on the spec's scenario 3: `DROP TABLE employees`
against a schema containing `employees` passes stages 1 and 2 and fails
stage 3 with `WriteOperationForbidden`. -/
theorem c4_write_rejection_witness :
    parseSQL "DROP TABLE employees" = .ok (.write .drop "employees") ∧
    (runGauntlet empSchema "DROP TABLE employees").syntactic =
      .ran true [] ∧
    (runGauntlet empSchema "DROP TABLE employees").semantic =
      .ran true [] ∧
    (runGauntlet empSchema "DROP TABLE employees").logical =
      .ran false ["WriteOperationForbidden"] :=
  ⟨by decide,
   (c4_write_rejection empSchema "DROP TABLE employees" .drop "employees"
     (by decide)).1,
   by decide,
   (c4_write_rejection empSchema "DROP TABLE employees" .drop "employees"
     (by decide)).2 (by decide)⟩

/-! ## C7 — totality and productivity of TRC→readable -/

/-- The canonical token sequence of a formula is never empty. -/
theorem toks_ne_nil (f : Formula) : toks f ≠ [] := by
  cases f <;> simp [toks]

/-- The canonical token sequence of a formula has at least two tokens. -/
theorem toks_two (f : Formula) : ∃ a b l, toks f = a :: b :: l := by
  cases f with
  | relationAtom v T => exact ⟨v, "∈", [T], rfl⟩
  | attrComparison v a op rhs => exact ⟨v, ".", _, rfl⟩
  | and l r =>
      obtain ⟨a, l', h⟩ := List.exists_cons_of_ne_nil (toks_ne_nil l)
      exact ⟨"(", a, l' ++ "∧" :: (toks r ++ [")"]), by simp [toks, h]⟩
  | or l r =>
      obtain ⟨a, l', h⟩ := List.exists_cons_of_ne_nil (toks_ne_nil l)
      exact ⟨"(", a, l' ++ "∨" :: (toks r ++ [")"]), by simp [toks, h]⟩
  | not f => exact ⟨"¬", "(", _, rfl⟩
  | ex v b => exact ⟨"∃", v, _, rfl⟩
  | all v b => exact ⟨"∀", v, _, rfl⟩

/-- Joining at least two words always yields a nonempty string (a space
separates them). -/
theorem joinWords_pos (a b : String) (l : List String) :
    0 < (joinWords (a :: b :: l)).length := by
  have h : joinWords (a :: b :: l) = a ++ " " ++ joinWords (b :: l) := rfl
  have hs : 0 < (" ").length := by decide
  rw [h]
  simp only [String.length_append]
  omega

/-- The natural-language gloss of any formula is a nonempty string. -/
theorem gloss_pos (f : Formula) : 0 < (gloss f).length := by
  have h1 : 0 < (" is a row of ").length := by decide
  have h2 : 0 < (".").length := by decide
  have h3 : 0 < (" and ").length := by decide
  have h4 : 0 < (" or ").length := by decide
  have h5 : 0 < ("not ").length := by decide
  have h6 : 0 < ("there exists a ").length := by decide
  have h7 : 0 < ("for every ").length := by decide
  induction f <;> simp only [gloss, String.length_append] <;> omega

/-- Claim C7 (spec-modelled): `TRC→readable` is a total function — on
every well-formed formula it produces the pair of the canonical symbolic
string and the natural-language gloss, both nonempty, and its type admits
no error outcome. -/
theorem c7_render_total (f : Formula) :
    renderReadableF f = (renderSymbolicF f, gloss f) ∧
    0 < (renderSymbolicF f).length ∧ 0 < (gloss f).length := by
  refine ⟨rfl, ?_, gloss_pos f⟩
  obtain ⟨a, b, l, h⟩ := toks_two f
  rw [renderSymbolicF, h]
  exact joinWords_pos a b l

/-! ## C3 — the Safety Checker enforces range-restriction -/

/-- The computed conjoined-variable list coincides with the declarative
`ConjAtom` relation. -/
theorem mem_conjVars {v : String} {f : Formula} :
    v ∈ conjVars f ↔ ConjAtom v f := by
  induction f with
  | relationAtom w T =>
      simp only [conjVars, List.mem_singleton]
      constructor
      · rintro rfl; exact .atom T
      · rintro h; cases h; rfl
  | and l r ihl ihr =>
      simp only [conjVars, List.mem_append, ihl, ihr]
      constructor
      · rintro (h | h)
        · exact .andL h
        · exact .andR h
      · rintro h
        cases h with
        | andL h => exact Or.inl h
        | andR h => exact Or.inr h
  | attrComparison w a op rhs =>
      simp only [conjVars, List.not_mem_nil, false_iff]
      intro h; cases h
  | or l r ihl ihr =>
      simp only [conjVars, List.not_mem_nil, false_iff]
      intro h; cases h
  | not f ih =>
      simp only [conjVars, List.not_mem_nil, false_iff]
      intro h; cases h
  | ex w b ih =>
      simp only [conjVars, List.not_mem_nil, false_iff]
      intro h; cases h
  | all w b ih =>
      simp only [conjVars, List.not_mem_nil, false_iff]
      intro h; cases h

/-- The range-restriction scan accepts (returns no violations) exactly the
formulas satisfying the declarative safety predicate. -/
theorem unsafeVars_nil_iff (f : Formula) :
    ∀ env, unsafeVars env f = [] ↔ SafeF env f := by
  induction f with
  | relationAtom v T =>
      intro env
      simp only [unsafeVars, true_iff]
      exact .atom v T
  | attrComparison v a op rhs =>
      intro env
      simp only [unsafeVars, true_iff]
      exact .cmp v a op rhs
  | and l r ihl ihr =>
      intro env
      simp only [unsafeVars, List.append_eq_nil, ihl, ihr]
      constructor
      · rintro ⟨h1, h2⟩; exact .and h1 h2
      · rintro h
        cases h with
        | and h1 h2 => exact ⟨h1, h2⟩
  | or l r ihl ihr =>
      intro env
      simp only [unsafeVars, List.append_eq_nil, ihl, ihr]
      constructor
      · rintro ⟨h1, h2⟩; exact .or h1 h2
      · rintro h
        cases h with
        | or h1 h2 => exact ⟨h1, h2⟩
  | not f ih =>
      intro env
      simp only [unsafeVars, List.append_eq_nil, List.filter_eq_nil_iff,
        decide_eq_true_eq, not_not, ih]
      constructor
      · rintro ⟨h1, h2⟩; exact .neg h1 h2
      · rintro h
        cases h with
        | neg h1 h2 => exact ⟨h1, h2⟩
  | ex v b ih =>
      intro env
      by_cases hc : v ∈ conjVars b
      · simp only [unsafeVars, if_pos hc, List.nil_append, ih]
        constructor
        · intro h; exact .ex (mem_conjVars.mp hc) h
        · rintro h
          cases h with
          | ex _ h2 => exact h2
      · simp only [unsafeVars, if_neg hc, List.cons_append,
          reduceCtorEq, false_iff]
        rintro h
        cases h with
        | ex h1 _ => exact hc (mem_conjVars.mpr h1)
  | all v b ih =>
      intro env
      by_cases hc : v ∈ conjVars b
      · simp only [unsafeVars, if_pos hc, List.nil_append, ih]
        constructor
        · intro h; exact .all (mem_conjVars.mp hc) h
        · rintro h
          cases h with
          | all _ h2 => exact h2
      · simp only [unsafeVars, if_neg hc, List.cons_append,
          reduceCtorEq, false_iff]
        rintro h
        cases h with
        | all h1 _ => exact hc (mem_conjVars.mpr h1)

/-- Query-level version: no range-restriction violations iff the
declarative invariant holds. -/
theorem unsafeQueryVars_nil_iff (q : TRCQuery) :
    unsafeQueryVars q = [] ↔ QueryRangeRestricted q := by
  unfold unsafeQueryVars QueryRangeRestricted
  by_cases hc : q.freeVar ∈ conjVars q.body
  · simp only [if_pos hc, List.nil_append, unsafeVars_nil_iff]
    exact ⟨fun h => ⟨mem_conjVars.mp hc, h⟩, fun h => h.2⟩
  · simp only [if_neg hc, List.cons_append, reduceCtorEq, false_iff]
    rintro ⟨h1, -⟩
    exact hc (mem_conjVars.mpr h1)

/-- Claim C3 (spec-modelled): every TRC query the Safety Checker accepts
satisfies range-restriction — its free head variable and every
quantifier-bound variable has a conjoined `RelationAtom` in scope — and
every query violating the invariant is rejected with an
`UnsafeFormula\x7bvariable\x7d` error. -/
theorem c3_range_restriction (q : TRCQuery) :
    (∀ (stmt : Statement) (tr : Translation), tr.query = q →
        logicalErrors stmt (some tr) = [] → QueryRangeRestricted q) ∧
    (¬ QueryRangeRestricted q →
      ∀ (stmt : Statement) (tr : Translation), tr.query = q →
        ∃ v, LogicalError.unsafeFormula v ∈
          logicalErrors stmt (some tr)) := by
  constructor
  · intro stmt tr hq hnil
    subst hq
    simp only [logicalErrors, List.append_eq_nil,
      List.map_eq_nil_iff] at hnil
    exact (unsafeQueryVars_nil_iff tr.query).mp (by tauto)
  · intro hnr stmt tr hq
    subst hq
    have hne : unsafeQueryVars tr.query ≠ [] := by
      intro h
      exact hnr ((unsafeQueryVars_nil_iff tr.query).mp h)
    obtain ⟨v, hv⟩ := List.exists_mem_of_ne_nil _ hne
    refine ⟨v, ?_⟩
    simp only [logicalErrors, List.mem_append, List.mem_map]
    exact Or.inr (Or.inl (Or.inr ⟨v, hv, rfl⟩))

/-- Witness for C3: the scenario-1 query is accepted and satisfies the
invariant; the purely negated query violates it and draws an
`UnsafeFormula` error. -/
theorem c3_range_restriction_witness :
    QueryRangeRestricted demoQuery ∧
    (∃ v, LogicalError.unsafeFormula v ∈
      logicalErrors demoSelect (some ⟨demoUnsafeQuery, []⟩)) :=
  ⟨(c3_range_restriction demoQuery).1 demoSelect ⟨demoQuery, []⟩ rfl
     (by decide),
   (c3_range_restriction demoUnsafeQuery).2
     (by rintro ⟨h1, -⟩; cases h1) demoSelect ⟨demoUnsafeQuery, []⟩ rfl⟩

/-! ## C6 — the canonical symbolic notation round-trips -/

/-- A plain identifier is none of the reserved structural tokens. -/
theorem ident_ne (s : String) (hs : isIdent s = true) :
    s ≠ "(" ∧ s ≠ "¬" ∧ s ≠ "∃" ∧ s ≠ "∀" ∧ s ≠ "∈" ∧ s ≠ "." := by
  refine ⟨?_, ?_, ?_, ?_, ?_, ?_⟩ <;> rintro rfl <;>
    exact absurd hs (by decide)

/-- `opOfWord` inverts the operator rendering. -/
theorem opOfWord_render (op : CmpOp) :
    opOfWord (CmpOp.render op) = some op := by
  cases op <;> rfl

/-- `parseRhs` inverts `rhsToks` on well-formed right-hand sides, for any
legal continuation. -/
theorem parseRhs_toks (rhs : CmpRhs) (rest : List String)
    (hw : wfRhs rhs = true) (hr : restOk rest = true) :
    parseRhs (rhsToks rhs ++ rest) = some (rhs, rest) := by
  cases rhs with
  | lit lex =>
      cases rest with
      | nil => rfl
      | cons y rest2 =>
          have hy : y ≠ "." := by
            simp [restOk] at hr
            rcases hr with rfl | rfl | rfl <;> decide
          simp [parseRhs, rhsToks, hy]
  | attr v2 a2 =>
      simp [parseRhs, rhsToks]

/-- The re-parser inverts the canonical rendering on every well-formed
formula, for any fuel at least the formula size and any legal
continuation. -/
theorem parse_toks (f : Formula) :
    ∀ (fuel : Nat) (rest : List String), wfF f = true → sizeF f ≤ fuel →
      restOk rest = true →
      parseFToks fuel (toks f ++ rest) = some (f, rest) := by
  induction f with
  | relationAtom v T =>
      intro fuel rest hw hsz hr
      match fuel, hsz with
      | n + 1, _ =>
        simp only [wfF, Bool.and_eq_true] at hw
        obtain ⟨h1, h2, h3, h4, h5, h6⟩ := ident_ne v hw.1
        simp only [toks, List.cons_append, parseFToks,
          if_neg h1, if_neg h2, if_neg h3, if_neg h4]
        simp
  | attrComparison v a op rhs =>
      intro fuel rest hw hsz hr
      match fuel, hsz with
      | n + 1, _ =>
        simp only [wfF, Bool.and_eq_true] at hw
        obtain ⟨h1, h2, h3, h4, h5, h6⟩ := ident_ne v hw.1.1
        simp only [toks, List.cons_append, List.append_assoc, parseFToks,
          if_neg h1, if_neg h2, if_neg h3, if_neg h4]
        simp [opOfWord_render, parseRhs_toks rhs rest hw.2 hr]
  | and l r ihl ihr =>
      intro fuel rest hw hsz hr
      match fuel, hsz with
      | n + 1, hsz =>
        simp only [wfF, Bool.and_eq_true] at hw
        simp only [sizeF] at hsz
        have hlist : toks (.and l r) ++ rest =
            "(" :: (toks l ++ ("∧" :: (toks r ++ (")" :: rest)))) := by
          simp [toks]
        rw [hlist]
        simp only [parseFToks, if_pos rfl]
        rw [ihl n _ hw.1 (by omega) (by rfl)]
        simp only []
        rw [ihr n _ hw.2 (by omega) (by rfl)]
        simp
  | or l r ihl ihr =>
      intro fuel rest hw hsz hr
      match fuel, hsz with
      | n + 1, hsz =>
        simp only [wfF, Bool.and_eq_true] at hw
        simp only [sizeF] at hsz
        have hlist : toks (.or l r) ++ rest =
            "(" :: (toks l ++ ("∨" :: (toks r ++ (")" :: rest)))) := by
          simp [toks]
        rw [hlist]
        simp only [parseFToks, if_pos rfl]
        rw [ihl n _ hw.1 (by omega) (by rfl)]
        simp only []
        rw [ihr n _ hw.2 (by omega) (by rfl)]
        simp
  | not f ih =>
      intro fuel rest hw hsz hr
      match fuel, hsz with
      | n + 1, hsz =>
        simp only [wfF] at hw
        simp only [sizeF] at hsz
        have hlist : toks (.not f) ++ rest =
            "¬" :: "(" :: (toks f ++ (")" :: rest)) := by
          simp [toks]
        rw [hlist]
        simp only [parseFToks]
        rw [ih n _ hw (by omega) (by rfl)]
        simp
  | ex v b ih =>
      intro fuel rest hw hsz hr
      match fuel, hsz with
      | n + 1, hsz =>
        simp only [wfF, Bool.and_eq_true] at hw
        simp only [sizeF] at hsz
        have hlist : toks (.ex v b) ++ rest =
            "∃" :: v :: "(" :: (toks b ++ (")" :: rest)) := by
          simp [toks]
        rw [hlist]
        simp only [parseFToks]
        rw [ih n _ hw.2 (by omega) (by rfl)]
        simp
  | all v b ih =>
      intro fuel rest hw hsz hr
      match fuel, hsz with
      | n + 1, hsz =>
        simp only [wfF, Bool.and_eq_true] at hw
        simp only [sizeF] at hsz
        have hlist : toks (.all v b) ++ rest =
            "∀" :: v :: "(" :: (toks b ++ (")" :: rest)) := by
          simp [toks]
        rw [hlist]
        simp only [parseFToks]
        rw [ih n _ hw.2 (by omega) (by rfl)]
        simp

/-- The formula size is bounded by its token count (so the re-parser's
fuel suffices). -/
theorem sizeF_le_toks (f : Formula) : sizeF f ≤ (toks f).length := by
  induction f <;>
    simp [sizeF, toks, rhsToks, List.length_append] <;> omega

/-- Claim C6 (spec-modelled): for every well-formed TRC formula, rendering
with `TRC→readable` and structurally re-parsing the canonical symbolic
token sequence of the resulting string yields the same tagged-variant
formula tree (the symbolic notation round-trips; the English gloss is not
required to). -/
theorem c6_symbolic_roundtrip (f : Formula) (h : wfF f = true) :
    reparseF (toks f) = some f ∧
    renderSymbolicF f = joinWords (toks f) := by
  refine ⟨?_, rfl⟩
  unfold reparseF
  have hp := parse_toks f ((toks f).length + 1) [] h
    (by have := sizeF_le_toks f; omega) rfl
  rw [List.append_nil] at hp
  rw [hp]

/-- Witness for C6 on the scenario-1 formula. -/
theorem c6_symbolic_roundtrip_witness :
    wfF demoFormula = true ∧
    reparseF (toks demoFormula) = some demoFormula :=
  ⟨by decide, (c6_symbolic_roundtrip demoFormula (by decide)).1⟩

end Text2SQL
